import Mathlib

/-!
Verification of the mailbot email pipeline (fetch / classify / act / analyze).

The Python sources are shallowly embedded: dictionaries become structures or
association lists, network collaborators (provider HTTP APIs, the LLM backend,
the stdlib JSON parser) become explicit oracle parameters, exceptions become
`Except`/`Option`, and mutating network calls are traced in an explicit
call-trace list so that "no network call happened" is a provable statement.
-/

namespace Mailbot

/-! ## Shared helpers: association lists with Python-dict semantics -/

/-- Python `d[k] = v`: update in place if the key exists, else append at the end. -/
def dictSet {α : Type} : List (String × α) → String → α → List (String × α)
  | [], k, v => [(k, v)]
  | (k', v') :: rest, k, v =>
    if k' = k then (k, v) :: rest else (k', v') :: dictSet rest k v

/-- Python `k in d` / `d.get(k)`: first binding of a key, if any. -/
def dictGet {α : Type} : List (String × α) → String → Option α
  | [], _ => none
  | (k', v) :: rest, k => if k' = k then some v else dictGet rest k

/-- Keys of every binding, in order. -/
def dictKeys {α : Type} (d : List (String × α)) : List String := d.map Prod.fst

/-- First-occurrence deduplication, mirroring the key order of a Python
dict built by repeated insertion. -/
def dedupFirst : List String → List String
  | [] => []
  | x :: xs => x :: (dedupFirst (xs.filter (fun y => y ≠ x)))
termination_by l => l.length
decreasing_by
  simp only [List.length_cons]
  exact Nat.lt_succ_of_le (List.length_filter_le _ xs)

/-! ## Shared helpers: strings -/

/-- The character `{` (written via its code point to keep it out of source braces). -/
def lBrace : Char := Char.ofNat 123

/-- The character `}`. -/
def rBrace : Char := Char.ofNat 125

/-- Tests whether `pre` starts `l`. -/
def startsWithChars (pre l : List Char) : Bool :=
  match pre, l with
  | [], _ => true
  | _ :: _, [] => false
  | p :: ps, x :: xs => p = x && startsWithChars ps xs

/-- Python `needle in hay`: contiguous-substring test. -/
def strContains (hay needle : String) : Bool :=
  (List.range (hay.data.length + 1)).any
    (fun i => startsWithChars needle.data (hay.data.drop i))

/-- Python `s.lower()`: per-character lowercasing (structural, so proofs can
evaluate it; same result as `String.toLower`). -/
def strToLower (s : String) : String := ⟨s.data.map Char.toLower⟩

/-- Python `s[:n]`: the first `n` characters. -/
def strTake (s : String) (n : Nat) : String := ⟨s.data.take n⟩

/-- Index of the first occurrence of `c`, if any. -/
def firstIdxOf (c : Char) : List Char → Option Nat
  | [] => none
  | x :: xs =>
    if x = c then some 0 else (firstIdxOf c xs).map (· + 1)

/-- Index of the last occurrence of `c`, if any. -/
def lastIdxOf (c : Char) (cs : List Char) : Option Nat :=
  (firstIdxOf c cs.reverse).map (fun i => cs.length - 1 - i)

/-- Model of Python `re.search(r'<o>.*<c>', s, re.DOTALL)`: with a greedy `.*`
the match, when one exists, runs from the first occurrence of the opening
character to the last occurrence of the closing character after it. -/
def extractSpan (o c : Char) (s : String) : Option String :=
  let cs := s.data
  match firstIdxOf o cs, lastIdxOf c cs with
  | some i, some j => if i < j then some ⟨(cs.drop i).take (j - i + 1)⟩ else none
  | _, _ => none

/-! ## Data model: the provider-normalized email record

`EmailRecord` embeds the Microsoft-Graph-shaped dictionaries that flow through
the pipeline (`id`, `subject`, `from.emailAddress.{address,name}`,
`receivedDateTime`, `bodyPreview`); `Option` models a missing dictionary key.
Timestamps are normalized to an integer instant (seconds); `none` stands for a
missing or empty `receivedDateTime` value. -/

structure EmailAddr where
  address : Option String := none
  name : Option String := none
deriving DecidableEq, Repr

/-- The value of the `from` key: either a nested dict (whose `emailAddress`
sub-dict may be absent) or a non-dict raw value. -/
inductive FromField where
  | obj : Option EmailAddr → FromField
  | raw : String → FromField
deriving DecidableEq, Repr

structure EmailRecord where
  id : Option String := none
  subject : Option String := none
  fromField : Option FromField := none
  bodyPreview : Option String := none
  receivedDateTime : Option Int := none
deriving DecidableEq, Repr

/-! ## Classifier (src/llm/classifier.py)

The LLM backend is an oracle `llm : LlmPrompt → String` (the concrete
providers catch their own exceptions and return `""`, so `call_llm` is total).
The prompt templates are opaque per the spec, so a prompt is embedded as the
data interpolated into the template rather than the flat template text.
Python's `json.loads` is an oracle too: `loadsObj` for a `{...}` match (a
successful parse of such a string is necessarily a JSON object) and
`loadsArr` for a `[...]` match (necessarily a JSON array). `none` models
`json.JSONDecodeError`. -/

/-- A JSON value, as far as the classifier inspects one. -/
inductive JVal where
  | obj : List (String × JVal) → JVal
  | arr : List JVal → JVal
  | str : String → JVal
  | num : Int → JVal
  | null : JVal

/-- Python `email.get('id')` as a JSON value: `None` becomes JSON null. -/
def jOptStr : Option String → JVal
  | some s => JVal.str s
  | none => JVal.null

/-- Python `result[k] = v` on a parsed JSON value: succeeds only on an
object; on any other value the assignment raises `TypeError`. -/
def jvalSetKey (k : String) (v : JVal) : JVal → Option JVal
  | JVal.obj fields => some (JVal.obj (dictSet fields k v))
  | _ => none

/-- The compact per-email summary sent in a batch prompt
(`_classify_batch`, lines 292-301). -/
structure BatchItem where
  id : Option String
  subject : String
  sender : String
  body_preview : String
  received_date : Option Int
deriving DecidableEq, Repr

/-- A prompt, embedded as the data interpolated into the (opaque) template. -/
inductive LlmPrompt where
  | single (subject sender body_preview : String) (received_date : Option Int)
  | batch (emails_data : List BatchItem)
deriving DecidableEq, Repr

/-- Embeds `EmailClassifier._extract_sender`: the `from` dict's
`emailAddress.address`, default `'Unknown Sender'`; a non-dict `from`
value is stringified. -/
def extractSender (e : EmailRecord) : String :=
  match e.fromField with
  | none => "Unknown Sender"
  | some (FromField.obj addr) =>
    match addr with
    | none => "Unknown Sender"
    | some a => a.address.getD "Unknown Sender"
  | some (FromField.raw s) => s

/-- Embeds `EmailClassifier._create_fallback_classification`. -/
def createFallbackClassification (e : EmailRecord) (providerName : String)
    (reason : String) : JVal :=
  JVal.obj
    [ ("email_id", jOptStr e.id)
    , ("category", JVal.str "UNKNOWN")
    , ("confidence", JVal.num 0)
    , ("reason", JVal.str reason)
    , ("suggested_action", JVal.str "manual_review")
    , ("folder_suggestion", JVal.null)
    , ("provider_used", JVal.str providerName) ]

/-- Embeds `EmailClassifier.classify_email`: build the single-email prompt, call the
backend, extract the first `{...}` span, parse it, attach `email_id` and
`provider_used`; fall back on a missing span or a parse error.  A successful
`loadsObj` yields an object, so the two key assignments cannot raise. -/
def classify_email (llm : LlmPrompt → String)
    (loadsObj : String → Option (List (String × JVal)))
    (providerName : String) (e : EmailRecord) : JVal :=
  let subject := e.subject.getD "No Subject"
  let sender := extractSender e
  let body_preview := strTake (e.bodyPreview.getD "") 500
  let prompt := LlmPrompt.single subject sender body_preview e.receivedDateTime
  let response := llm prompt
  match extractSpan lBrace rBrace response with
  | some s =>
    match loadsObj s with
    | some fields =>
      JVal.obj (dictSet (dictSet fields "email_id" (jOptStr e.id))
        "provider_used" (JVal.str providerName))
    | none => createFallbackClassification e providerName "JSON decode error"
  | none =>
    createFallbackClassification e providerName "Failed to parse LLM response"

/-- Runs a fallible step over a list, stopping at the first failure —
the shape of the `for result in batch_results:` stamping loop, whose
`TypeError` aborts the whole call. -/
def optMapM {α β : Type} (f : α → Option β) : List α → Option (List β)
  | [] => some []
  | x :: xs =>
    match f x with
    | none => none
    | some y =>
      match optMapM f xs with
      | none => none
      | some ys => some (y :: ys)

/-- The batch summary of one email (`_classify_batch`, lines 293-301). -/
def batchItemOf (e : EmailRecord) : BatchItem :=
  { id := e.id
  , subject := strTake (e.subject.getD "No Subject") 100
  , sender := extractSender e
  , body_preview := strTake (e.bodyPreview.getD "") 200
  , received_date := e.receivedDateTime }

/-- Embeds `EmailClassifier._classify_batch`: one batch prompt; on a parsed JSON
array, stamp `provider_used` on each element and return them as-is (a
non-object element makes the stamping raise `TypeError`, modeled as
`Except.error`); on a missing or malformed array, fall back to per-item
classification. -/
def classify_batch (llm : LlmPrompt → String)
    (loadsObj : String → Option (List (String × JVal)))
    (loadsArr : String → Option (List JVal))
    (providerName : String) (emails : List EmailRecord) :
    Except Unit (List JVal) :=
  let prompt := LlmPrompt.batch (emails.map batchItemOf)
  let response := llm prompt
  match extractSpan '[' ']' response with
  | some s =>
    match loadsArr s with
    | some batchResults =>
      match optMapM (jvalSetKey "provider_used" (JVal.str providerName)) batchResults with
      | some stamped => Except.ok stamped
      | none => Except.error ()
    | none => Except.ok (emails.map (classify_email llm loadsObj providerName))
  | none => Except.ok (emails.map (classify_email llm loadsObj providerName))

/-- Python `range(0, len(emails), batch_size)` slicing: the successive chunks
`emails[i:i+batch_size]`.  Fuel-driven so the definition is total; with
`batchSize ≥ 1` the fuel `l.length` is never exhausted. -/
def chunksGo {α : Type} (batchSize : Nat) : Nat → List α → List (List α)
  | _, [] => []
  | 0, _ :: _ => []
  | fuel + 1, x :: xs =>
    (x :: xs).take batchSize :: chunksGo batchSize fuel ((x :: xs).drop batchSize)

def chunks {α : Type} (batchSize : Nat) (l : List α) : List (List α) :=
  chunksGo batchSize l.length l

/-- The free backends that are always classified per-item
(`classify_emails_batch`, line 279). -/
def isFreeProvider (name : String) : Bool :=
  name = "ollama" || name = "groq" || name = "gemini"

/-- Embeds `EmailClassifier.classify_emails_batch`: slice into chunks of
`batchSize`; free backends classify each email of a chunk individually,
premium backends send one batch prompt per chunk. -/
def classify_emails_batch (llm : LlmPrompt → String)
    (loadsObj : String → Option (List (String × JVal)))
    (loadsArr : String → Option (List JVal))
    (providerName : String) (emails : List EmailRecord)
    (batchSize : Nat) : Except Unit (List JVal) :=
  (chunks batchSize emails).foldlM
    (fun acc batch =>
      if isFreeProvider providerName then
        Except.ok (acc ++ batch.map (classify_email llm loadsObj providerName))
      else do
        let batchResults ← classify_batch llm loadsObj loadsArr providerName batch
        Except.ok (acc ++ batchResults))
    []

/-! ## Outlook fetcher (src/email/outlook_fetcher.py)

`EmailFetcher.fetch_emails` pages through the Graph API inside one `try`
block.  The provider is embedded as the finite sequence of page responses it
would serve: element `k` is the response to the `k`-th request, and
`@odata.nextLink` is present exactly when another element follows.  A
`.error` element is a `requests.exceptions.RequestException` raised by that
request; the handler returns `[]` for the whole call.  The `$orderby` /
`$filter` query parameters make ordering and date restriction provider-side
facts, stated as hypotheses on the page contents. -/

/-- The `while len(all_emails) < limit and url:` loop of
`fetch_emails` (lines 46-64), including the `break` once `limit` is reached
and the `except` that returns `[]`, followed by `all_emails[:limit]`. -/
def outlookFetchGo (limit : Nat) :
    List (Except Unit (List EmailRecord)) → List EmailRecord → List EmailRecord
  | [], acc => acc.take limit
  | page :: rest, acc =>
    if acc.length < limit then
      match page with
      | Except.error _ => []
      | Except.ok pageEmails => outlookFetchGo limit rest (acc ++ pageEmails)
    else acc.take limit

/-- Embeds `EmailFetcher.fetch_emails`, as a function of the page-response sequence. -/
def outlook_fetch_emails (limit : Nat)
    (pages : List (Except Unit (List EmailRecord))) : List EmailRecord :=
  outlookFetchGo limit pages []

/-! ## Gmail fetcher (src/email/gmail_fetcher.py)

`GmailFetcher.fetch_emails` makes a single `messages().list` call
(`maxResults=limit`, no paging) and then fetches details per message id.
`listResult` is that call's outcome (`.error` = `HttpError` or other
exception → `[]`).  `details` is `_get_message_details`: it catches all of
its own exceptions and returns `None` on failure, and the caller also skips
a message whose detail fetch raises — both are `none`, and a `none` message
is skipped while the loop continues. -/

def gmail_fetch_emails (limit : Nat)
    (listResult : Except Unit (List String))
    (details : String → Option EmailRecord) : List EmailRecord :=
  match listResult with
  | Except.error _ => []
  | Except.ok messages =>
    if messages.isEmpty then []
    else (messages.filterMap details).take limit

/-- The payload of a page response that did not raise. -/
def okValue {ε α : Type} : Except ε α → Option α
  | Except.ok v => some v
  | Except.error _ => none

/-! ## Outlook actions (src/actions/email_actions.py)

Every operation returns its result together with the trace of network
requests it issued, so dry-run suppression is the provable statement
"the trace is empty".  The provider is an oracle from a request to either a
raised `requests.exceptions.RequestException` (`.error`) or an HTTP
response; `create_folder` also reads the response body's `id`. -/

/-- A Microsoft Graph request issued by `EmailActions`. -/
inductive MsCall where
  | deleteMsg (emailId : String)
  | moveMsg (emailId : String) (destinationId : String)
  | patchIsRead (emailId : String) (isRead : Bool)
  | createFolder (displayName : String) (parentFolder : String)
deriving DecidableEq, Repr

/-- A Graph HTTP response: status code plus the body's `id` field, when any. -/
structure MsResponse where
  status : Nat
  bodyId : Option String := none
deriving DecidableEq, Repr

/-- Embeds `EmailActions.delete_email` (lines 12-57). -/
def ms_delete_email (dryRun : Bool) (respond : MsCall → Except Unit MsResponse)
    (emailId : String) (permanent : Bool) : Bool × List MsCall :=
  if dryRun then (true, [])
  else
    let call := if permanent then MsCall.deleteMsg emailId
                else MsCall.moveMsg emailId "deleteditems"
    match respond call with
    | Except.error _ => (false, [call])
    | Except.ok r => (decide (r.status ∈ [200, 202, 204]), [call])

/-- Embeds `EmailActions.move_email` (lines 59-92). -/
def ms_move_email (dryRun : Bool) (respond : MsCall → Except Unit MsResponse)
    (emailId : String) (folderId : String) : Bool × List MsCall :=
  if dryRun then (true, [])
  else
    let call := MsCall.moveMsg emailId folderId
    match respond call with
    | Except.error _ => (false, [call])
    | Except.ok r => (decide (r.status ∈ [200, 201, 202]), [call])

/-- Embeds `EmailActions.create_folder` (lines 94-129): returns the created folder's
id on 200/201, `None` on any other status or a raised request exception. -/
def ms_create_folder (dryRun : Bool) (respond : MsCall → Except Unit MsResponse)
    (folderName : String) (parentFolder : String) : Option String × List MsCall :=
  if dryRun then (some "dry_run_folder_id", [])
  else
    let call := MsCall.createFolder folderName parentFolder
    match respond call with
    | Except.error _ => (none, [call])
    | Except.ok r =>
      if r.status ∈ [200, 201] then (r.bodyId, [call]) else (none, [call])

/-- Embeds `EmailActions.mark_as_read` (lines 131-164). -/
def ms_mark_as_read (dryRun : Bool) (respond : MsCall → Except Unit MsResponse)
    (emailId : String) (isRead : Bool) : Bool × List MsCall :=
  if dryRun then (true, [])
  else
    let call := MsCall.patchIsRead emailId isRead
    match respond call with
    | Except.error _ => (false, [call])
    | Except.ok r => (decide (r.status ∈ [200, 202]), [call])

/-- The shared shape of every bulk loop (`bulk_delete` / `bulk_move`, both
providers): a sequential `for` over the ids filling `results[email_id]` with
the per-item action's outcome, with a rate-limit sleep (a no-op here)
between calls; one item's failure does not touch the loop. -/
def bulkStep {γ : Type} (action : String → Bool × List γ)
    (acc : List (String × Bool) × List γ) (emailId : String) :
    List (String × Bool) × List γ :=
  let step := action emailId
  (dictSet acc.1 emailId step.1, acc.2 ++ step.2)

def bulkLoop {γ : Type} (action : String → Bool × List γ)
    (emailIds : List String) : List (String × Bool) × List γ :=
  emailIds.foldl (bulkStep action) ([], [])

/-- Embeds `EmailActions.bulk_delete` (lines 166-184). -/
def ms_bulk_delete (dryRun : Bool) (respond : MsCall → Except Unit MsResponse)
    (emailIds : List String) (permanent : Bool) :
    List (String × Bool) × List MsCall :=
  bulkLoop (fun emailId => ms_delete_email dryRun respond emailId permanent) emailIds

/-- Embeds `EmailActions.bulk_move` (lines 186-204). -/
def ms_bulk_move (dryRun : Bool) (respond : MsCall → Except Unit MsResponse)
    (emailIds : List String) (folderId : String) :
    List (String × Bool) × List MsCall :=
  bulkLoop (fun emailId => ms_move_email dryRun respond emailId folderId) emailIds

/-! ## Gmail actions (src/actions/gmail_actions.py)

Same call-trace embedding.  A failed Gmail API call is either an
`HttpError` carrying an HTTP status (`create_label` branches on 409) or any
other exception. -/

/-- A Gmail API request issued by `GmailActions`. -/
inductive GCall where
  | trashMsg (emailId : String)
  | deleteMsg (emailId : String)
  | modifyMsg (emailId : String) (addLabelIds removeLabelIds : List String)
  | createLabel (name : String)
  | listLabels
deriving DecidableEq, Repr

/-- An exception raised by an executed Gmail request. -/
inductive GErr where
  | http (status : Nat)
  | other
deriving DecidableEq, Repr

/-- Embeds `GmailActions.delete_email` (lines 23-64): `trash` or permanent `delete`;
both `HttpError` and any other exception are caught and yield `False`. -/
def g_delete_email (dryRun : Bool) (respond : GCall → Except GErr Unit)
    (emailId : String) (permanent : Bool) : Bool × List GCall :=
  if dryRun then (true, [])
  else
    let call := if permanent then GCall.deleteMsg emailId else GCall.trashMsg emailId
    match respond call with
    | Except.error _ => (false, [call])
    | Except.ok _ => (true, [call])

/-- Embeds `GmailActions._get_label_id` (lines 234-250): list all labels (a network
read), return the id of the first case-insensitive name match, `None` on no
match or any exception. -/
def g_get_label_id (listLabels : Except GErr (List (String × String)))
    (labelName : String) : Option String × List GCall :=
  match listLabels with
  | Except.error _ => (none, [GCall.listLabels])
  | Except.ok labels =>
    match labels.find? (fun p => strToLower p.1 = strToLower labelName) with
    | some p => (some p.2, [GCall.listLabels])
    | none => (none, [GCall.listLabels])

/-- Embeds `GmailActions.move_email` (lines 66-108): resolve the label name (a
falsy id — `None` or the empty string — fails the move), then modify the
message's labels; all exceptions yield `False`. -/
def g_move_email (dryRun : Bool) (respond : GCall → Except GErr Unit)
    (listLabels : Except GErr (List (String × String)))
    (emailId : String) (labelName : String) : Bool × List GCall :=
  if dryRun then (true, [])
  else
    let lookup := g_get_label_id listLabels labelName
    match lookup.1 with
    | none => (false, lookup.2)
    | some labelId =>
      if labelId = "" then (false, lookup.2)
      else
        let call := GCall.modifyMsg emailId [labelId] ["INBOX"]
        match respond call with
        | Except.error _ => (false, lookup.2 ++ [call])
        | Except.ok _ => (true, lookup.2 ++ [call])

/-- Embeds `GmailActions.create_label` (lines 110-149): an `HttpError` with status
409 means the label already exists and is treated as success. -/
def g_create_label (dryRun : Bool) (respond : GCall → Except GErr Unit)
    (labelName : String) : Bool × List GCall :=
  if dryRun then (true, [])
  else
    let call := GCall.createLabel labelName
    match respond call with
    | Except.ok _ => (true, [call])
    | Except.error (GErr.http status) =>
      if status = 409 then (true, [call]) else (false, [call])
    | Except.error GErr.other => (false, [call])

/-- Embeds `GmailActions.mark_as_read` (lines 151-192). -/
def g_mark_as_read (dryRun : Bool) (respond : GCall → Except GErr Unit)
    (emailId : String) (isRead : Bool) : Bool × List GCall :=
  if dryRun then (true, [])
  else
    let call := if isRead then GCall.modifyMsg emailId [] ["UNREAD"]
                else GCall.modifyMsg emailId ["UNREAD"] []
    match respond call with
    | Except.error _ => (false, [call])
    | Except.ok _ => (true, [call])

/-- Embeds `GmailActions.bulk_delete` (lines 194-212). -/
def g_bulk_delete (dryRun : Bool) (respond : GCall → Except GErr Unit)
    (emailIds : List String) (permanent : Bool) :
    List (String × Bool) × List GCall :=
  bulkLoop (fun emailId => g_delete_email dryRun respond emailId permanent) emailIds

/-- Embeds `GmailActions.bulk_move` (lines 214-232). -/
def g_bulk_move (dryRun : Bool) (respond : GCall → Except GErr Unit)
    (listLabels : Except GErr (List (String × String)))
    (emailIds : List String) (labelName : String) :
    List (String × Bool) × List GCall :=
  bulkLoop (fun emailId => g_move_email dryRun respond listLabels emailId labelName) emailIds

/-! ## Processor (src/email/processor.py)

Pure local analytics.  `datetime.now()` is passed in as `now` (an instant in
seconds); `days_old` days become `days_old * 86400` seconds. -/

/-- Embeds `EmailProcessor._extract_domain`: the piece after the first `@`,
lowercased; `'Unknown'` when there is no `@`. -/
def extract_domain (email : String) : String :=
  if email.data.contains '@' then
    strToLower (((email.splitOn "@").drop 1).headD "")
  else "Unknown"

/-- The `email` field of `EmailProcessor.extract_sender_info`: the `from`
dict's `emailAddress.address` with default `'Unknown'`; a non-dict `from`
value yields `'Unknown'`. -/
def senderInfoEmail (e : EmailRecord) : String :=
  match e.fromField with
  | none => "Unknown"
  | some (FromField.obj addr) =>
    match addr with
    | none => "Unknown"
    | some a => a.address.getD "Unknown"
  | some (FromField.raw _) => "Unknown"

/-- The fixed ordered category keyword table of
`EmailProcessor.categorize_by_content` (lines 201-208). -/
def categoryKeywords : List (String × List String) :=
  [ ("newsletters", ["newsletter", "weekly update", "digest", "roundup"])
  , ("notifications", ["notification", "alert", "reminder", "update"])
  , ("receipts", ["receipt", "invoice", "payment", "order", "purchase"])
  , ("social", ["facebook", "twitter", "instagram", "linkedin", "social"])
  , ("security", ["security", "password", "login", "verify", "2fa", "verification"])
  , ("promotional", ["sale", "discount", "promo", "deal", "offer"]) ]

/-- The category key order of the `categories` result dict. -/
def categoryNames : List String :=
  ["newsletters", "notifications", "receipts", "social", "security", "promotional"]

/-- The search text of one email in `categorize_by_content` (lines 211-214):
lowercased subject, lowercased body preview, and the sender address as
returned by `extract_sender_info` — the sender is not lowercased. -/
def categorizeContent (e : EmailRecord) : String :=
  strToLower (e.subject.getD "") ++ " " ++ strToLower (e.bodyPreview.getD "")
    ++ " " ++ senderInfoEmail e

/-- The category the per-email loop of `categorize_by_content` assigns: the
first table entry one of whose keywords occurs in the search text, else the
`promotional` default. -/
def categorizeEmail (e : EmailRecord) : String :=
  match categoryKeywords.find?
      (fun p => p.2.any (fun kw => strContains (categorizeContent e) kw)) with
  | some p => p.1
  | none => "promotional"

/-- Embeds `EmailProcessor.categorize_by_content`: each category key mapped to the
ids (in submission order, `'unknown'` for a missing id) of the emails the
loop assigned to it. -/
def categorize_by_content (emails : List EmailRecord) : List (String × List String) :=
  categoryNames.map (fun c =>
    (c, emails.filterMap (fun e =>
      if categorizeEmail e = c then some (e.id.getD "unknown") else none)))

/-- Is the email's `receivedDateTime` present and strictly before the
cutoff `now - days_old` days (`get_bulk_delete_candidates`, lines 241-246)?
A missing or empty timestamp is falsy and the email is skipped. -/
def isOldEmail (now : Int) (daysOld : Nat) (e : EmailRecord) : Bool :=
  match e.receivedDateTime with
  | some t => decide (t < now - daysOld * 86400)
  | none => false

/-- Embeds `EmailProcessor.get_bulk_delete_candidates`: group the ids of
old-enough emails by sender (`defaultdict` insertion order = first
appearance), then keep the senders with at least `minSenderCount` ids. -/
def get_bulk_delete_candidates (now : Int) (emails : List EmailRecord)
    (daysOld : Nat) (minSenderCount : Nat) : List (String × List (Option String)) :=
  let old := emails.filter (isOldEmail now daysOld)
  let senders := dedupFirst (old.map senderInfoEmail)
  (senders.map (fun s =>
    (s, (old.filter (fun e => senderInfoEmail e = s)).map (·.id)))).filter
    (fun p => minSenderCount ≤ p.2.length)

/-! ## Concrete instances used by witnesses and counterexamples -/

def exEmailA : EmailRecord :=
  { id := some "a1"
  , subject := some "Hello"
  , fromField := some (FromField.obj (some { address := some "alice@example.com"
                                           , name := some "Alice" }))
  , bodyPreview := some "hi there"
  , receivedDateTime := some 1000 }

def exEmailB : EmailRecord :=
  { id := some "b2"
  , subject := some "Another subject"
  , fromField := some (FromField.obj (some { address := some "bob@example.com"
                                           , name := some "Bob" }))
  , bodyPreview := some "second body"
  , receivedDateTime := some 2000 }

def newsletterEmail : EmailRecord :=
  { id := some "1"
  , subject := some "Weekly Newsletter"
  , fromField := some (FromField.obj (some { address := some "news@site.com"
                                           , name := some "Site" }))
  , bodyPreview := some "This weeks roundup of news" }

def passwordEmail : EmailRecord :=
  { id := some "2"
  , subject := some "Password Reset Required"
  , fromField := some (FromField.obj (some { address := some "security@bank.com"
                                           , name := some "Bank" }))
  , bodyPreview := some "Please verify your identity" }

def receiptEmail : EmailRecord :=
  { id := some "3"
  , subject := some "Receipt for your purchase"
  , fromField := some (FromField.obj (some { address := some "billing@store.com"
                                           , name := some "Store" }))
  , bodyPreview := some "Order 12345" }

/-- An email whose only keyword occurrence is in the upper-cased sender
address: under case-insensitive matching it belongs to `newsletters`. -/
def upperSenderEmail : EmailRecord :=
  { id := some "x"
  , subject := some ""
  , fromField := some (FromField.obj (some { address := some "NEWSLETTER@EXAMPLE.COM"
                                           , name := some "N" }))
  , bodyPreview := some "" }

/-- An email matching no keyword set at all. -/
def blandEmail : EmailRecord :=
  { id := some "z"
  , subject := some "hello friend"
  , fromField := some (FromField.obj (some { address := some "friend@mail.test"
                                           , name := some "Friend" }))
  , bodyPreview := some "see you soon" }

def spamSenderEmail (i : Nat) : EmailRecord :=
  { id := some ("email_" ++ toString i)
  , fromField := some (FromField.obj (some { address := some "spam@example.com"
                                           , name := some "Spam" }))
  , receivedDateTime := some 0 }

def otherSenderEmail (i : Nat) : EmailRecord :=
  { id := some ("other_" ++ toString i)
  , fromField := some (FromField.obj (some { address := some "other@example.com"
                                           , name := some "Other" }))
  , receivedDateTime := some 0 }

/-- Six emails from one sender and three from another, all dated at instant 0. -/
def candidateEmails : List EmailRecord :=
  (List.range 6).map spamSenderEmail ++ (List.range 3).map otherSenderEmail

/-! ## Spec-side definitions (for refinement-style comparison)

These two follow the claims' wording, not the source, and exist only to be
compared with the source-derived `categorizeEmail`. -/

/-- First-keyword-match-wins over an ordered category table, defaulting to
`promotional`, as the content-categorization claim words the rule. -/
def specFirstMatch : List (String × List String) → String → String
  | [], _ => "promotional"
  | (c, kws) :: rest, content =>
    if kws.any (fun kw => strContains content kw) then c
    else specFirstMatch rest content

/-- The search text with the amended case convention: lowercased subject and
body preview, the sender address taken verbatim (not lowercased). -/
def specContent (e : EmailRecord) : String :=
  strToLower (e.subject.getD "") ++ " " ++ strToLower (e.bodyPreview.getD "")
    ++ " " ++ senderInfoEmail e

/-! ## General lemmas about the helpers -/

theorem dictGet_dictSet_self {α : Type} (d : List (String × α)) (k : String) (v : α) :
    dictGet (dictSet d k v) k = some v := by
  induction d with
  | nil => simp [dictSet, dictGet]
  | cons p rest ih =>
    obtain ⟨k', v'⟩ := p
    by_cases h : k' = k
    · simp [dictSet, dictGet, h]
    · simp [dictSet, dictGet, h, ih]

theorem dictGet_dictSet_ne {α : Type} (d : List (String × α)) (k k' : String) (v : α)
    (h : k' ≠ k) : dictGet (dictSet d k v) k' = dictGet d k' := by
  induction d with
  | nil => simp [dictSet, dictGet, Ne.symm h]
  | cons p rest ih =>
    obtain ⟨k'', v''⟩ := p
    by_cases h2 : k'' = k
    · subst h2
      simp [dictSet, dictGet, Ne.symm h]
    · simp only [dictSet, if_neg h2, dictGet]
      by_cases h3 : k'' = k'
      · simp [h3, dictGet]
      · simp [h3, ih]

theorem mem_dedupFirst (l : List String) (a : String) : a ∈ dedupFirst l ↔ a ∈ l := by
  induction l using dedupFirst.induct with
  | case1 => simp [dedupFirst]
  | case2 x xs ih =>
    rw [dedupFirst]
    rw [List.mem_cons, ih, List.mem_filter, List.mem_cons]
    by_cases hax : a = x <;> simp [hax]

theorem nodup_dedupFirst (l : List String) : (dedupFirst l).Nodup := by
  induction l using dedupFirst.induct with
  | case1 => simp [dedupFirst]
  | case2 x xs ih =>
    rw [dedupFirst]
    refine List.Nodup.cons ?_ ih
    intro hx
    rw [mem_dedupFirst] at hx
    simp [List.mem_filter] at hx

theorem chunksGo_flatten {α : Type} (n : Nat) (hn : 1 ≤ n) :
    ∀ (fuel : Nat) (l : List α), l.length ≤ fuel → (chunksGo n fuel l).flatten = l := by
  intro fuel
  induction fuel with
  | zero =>
    intro l hl
    have : l = [] := List.length_eq_zero.mp (Nat.le_antisymm hl (Nat.zero_le _))
    subst this
    simp [chunksGo]
  | succ f ih =>
    intro l hl
    cases l with
    | nil => simp [chunksGo]
    | cons x xs =>
      rw [chunksGo, List.flatten_cons, ih ((x :: xs).drop n) ?_, List.take_append_drop]
      rw [List.length_drop]
      simp only [List.length_cons] at hl ⊢
      omega

theorem chunks_flatten {α : Type} (n : Nat) (hn : 1 ≤ n) (l : List α) :
    (chunks n l).flatten = l :=
  chunksGo_flatten n hn l.length l le_rfl

theorem optMapM_length {α β : Type} (f : α → Option β) :
    ∀ (l : List α) (l' : List β), optMapM f l = some l' → l'.length = l.length := by
  intro l
  induction l with
  | nil => intro l' h; simp [optMapM] at h; simp [← h]
  | cons x xs ih =>
    intro l' h
    rw [optMapM] at h
    cases hfx : f x with
    | none => rw [hfx] at h; simp at h
    | some y =>
      rw [hfx] at h
      cases hxs : optMapM f xs with
      | none => rw [hxs] at h; simp at h
      | some ys =>
        rw [hxs] at h
        simp only [Option.some.injEq] at h
        subst h
        simp [ih ys hxs]

theorem bulkLoop_foldl_get {γ : Type} (action : String → Bool × List γ) :
    ∀ (ids : List String) (acc : List (String × Bool) × List γ) (k : String),
      dictGet (List.foldl (bulkStep action) acc ids).1 k
        = if k ∈ ids then some (action k).1 else dictGet acc.1 k := by
  intro ids
  induction ids with
  | nil => simp
  | cons i rest ih =>
    intro acc k
    rw [List.foldl_cons, ih]
    by_cases hk : k ∈ rest
    · simp [hk]
    · by_cases hik : k = i
      · subst hik
        simp [hk, bulkStep, dictGet_dictSet_self]
      · simp [hk, hik, bulkStep, dictGet_dictSet_ne _ _ _ _ hik]

/-- Membership version: the bulk result dict has an entry, equal to the
per-item action's result, for every submitted id. -/
theorem bulkLoop_get {γ : Type} (action : String → Bool × List γ)
    (ids : List String) (k : String) (hk : k ∈ ids) :
    dictGet (bulkLoop action ids).1 k = some (action k).1 := by
  rw [bulkLoop, bulkLoop_foldl_get, if_pos hk]

theorem bulkLoop_foldl_trace {γ : Type} (action : String → Bool × List γ) :
    ∀ (ids : List String) (acc : List (String × Bool) × List γ),
      (List.foldl (bulkStep action) acc ids).2
        = acc.2 ++ (ids.map (fun i => (action i).2)).flatten := by
  intro ids
  induction ids with
  | nil => simp
  | cons i rest ih =>
    intro acc
    rw [List.foldl_cons, ih]
    simp [bulkStep, List.append_assoc]

/-- The network trace of a bulk loop is the concatenation of its items'
traces; in particular it is empty when no item makes a call. -/
theorem bulkLoop_trace {γ : Type} (action : String → Bool × List γ)
    (ids : List String) :
    (bulkLoop action ids).2 = (ids.map (fun i => (action i).2)).flatten := by
  rw [bulkLoop, bulkLoop_foldl_trace]
  simp

/-! ## Classifier lemmas -/

/-- When the batch response holds no parseable JSON array, `_classify_batch`
classifies each email of the batch individually. -/
theorem classify_batch_no_array (llm : LlmPrompt → String)
    (loadsObj : String → Option (List (String × JVal)))
    (loadsArr : String → Option (List JVal))
    (pname : String) (batch : List EmailRecord)
    (h : (extractSpan '[' ']'
        (llm (LlmPrompt.batch (batch.map batchItemOf)))).bind loadsArr = none) :
    classify_batch llm loadsObj loadsArr pname batch
      = Except.ok (batch.map (classify_email llm loadsObj pname)) := by
  simp only [classify_batch]
  cases hx : extractSpan '[' ']' (llm (LlmPrompt.batch (batch.map batchItemOf))) with
  | none => rfl
  | some s =>
    have hn : loadsArr s = none := by
      rw [hx] at h
      simpa using h
    simp [hn]

/-- A fold in the `Except` monad whose every step succeeds and appends a
per-item block. -/
theorem foldlM_ok_of_step {α β : Type} (step : List β → α → Except Unit (List β))
    (g : α → List β) (hstep : ∀ acc a, step acc a = Except.ok (acc ++ g a)) :
    ∀ (l : List α) (acc : List β),
      List.foldlM step acc l = Except.ok (acc ++ (l.map g).flatten) := by
  intro l
  induction l with
  | nil =>
    intro acc
    rw [List.foldlM_nil]
    simp
    rfl
  | cons a rest ih =>
    intro acc
    rw [List.foldlM_cons, hstep]
    show (pure (acc ++ g a) >>= fun init => List.foldlM step init rest) = _
    rw [pure_bind, ih]
    simp

/-- Both recovery situations in which `classify_emails_batch` is per-item
classification of every submitted email: a free backend, or no batch
response carrying a parseable JSON array. -/
theorem classifier_eq_map (llm : LlmPrompt → String)
    (loadsObj : String → Option (List (String × JVal)))
    (loadsArr : String → Option (List JVal))
    (pname : String) (emails : List EmailRecord) (batchSize : Nat)
    (hb : 1 ≤ batchSize)
    (h : isFreeProvider pname = true
        ∨ ∀ p, (extractSpan '[' ']' (llm p)).bind loadsArr = none) :
    classify_emails_batch llm loadsObj loadsArr pname emails batchSize
      = Except.ok (emails.map (classify_email llm loadsObj pname)) := by
  refine (foldlM_ok_of_step _
      (fun b => b.map (classify_email llm loadsObj pname)) ?_
      (chunks batchSize emails) []).trans ?_
  · intro acc batch
    by_cases hf : isFreeProvider pname = true
    · simp [hf]
    · cases h with
      | inl h1 => exact absurd h1 hf
      | inr hmal =>
        simp only [hf, if_false, Bool.false_eq_true]
        rw [classify_batch_no_array llm loadsObj loadsArr pname batch (hmal _)]
        rfl
  · rw [List.nil_append, ← List.map_flatten, chunks_flatten batchSize hb]

/-! ## Claim C1 -/

/-- C1 (amended): `classify_emails_batch` returns exactly one
`ClassificationResult` per submitted record when the selected backend is a
free one (per-item classification), and — for any backend — whenever no
batch response contains a parseable JSON array, which covers every LLM call
failing or returning unparseable text.  When a premium batch response does
parse as a JSON array, however, the parsed array's stamped elements are
returned as-is: the batch contributes exactly the array's length, which the
code never checks against the number of submitted records. -/
theorem classify_emails_batch_one_result_per_record (llm : LlmPrompt → String)
    (loadsObj : String → Option (List (String × JVal)))
    (loadsArr : String → Option (List JVal))
    (pname : String) (emails : List EmailRecord) (batchSize : Nat)
    (hb : 1 ≤ batchSize) :
    (isFreeProvider pname = true →
      ∃ rs, classify_emails_batch llm loadsObj loadsArr pname emails batchSize
          = Except.ok rs ∧ rs.length = emails.length)
    ∧ ((∀ p, (extractSpan '[' ']' (llm p)).bind loadsArr = none) →
      ∃ rs, classify_emails_batch llm loadsObj loadsArr pname emails batchSize
          = Except.ok rs ∧ rs.length = emails.length)
    ∧ (∀ (batch : List EmailRecord) (s : String) (arr stamped : List JVal),
        extractSpan '[' ']' (llm (LlmPrompt.batch (batch.map batchItemOf))) = some s →
        loadsArr s = some arr →
        optMapM (jvalSetKey "provider_used" (JVal.str pname)) arr = some stamped →
        classify_batch llm loadsObj loadsArr pname batch = Except.ok stamped
          ∧ stamped.length = arr.length)
    ∧ (∀ e : EmailRecord,
        extractSpan lBrace rBrace (llm (LlmPrompt.single (e.subject.getD "No Subject")
            (extractSender e) (strTake (e.bodyPreview.getD "") 500)
            e.receivedDateTime)) = none →
        classify_email llm loadsObj pname e
          = createFallbackClassification e pname "Failed to parse LLM response") := by
  refine ⟨?_, ?_, ?_, ?_⟩
  · intro hf
    exact ⟨_, classifier_eq_map llm loadsObj loadsArr pname emails batchSize hb
      (Or.inl hf), by simp⟩
  · intro hmal
    exact ⟨_, classifier_eq_map llm loadsObj loadsArr pname emails batchSize hb
      (Or.inr hmal), by simp⟩
  · intro batch s arr stamped hx hl hm
    constructor
    · simp [classify_batch, hx, hl, hm]
    · exact optMapM_length _ arr stamped hm
  · intro e he
    simp [classify_email, he]

/-- C1 counterexample: a premium backend whose batch response is the
well-formed JSON array `[]` makes `classify_emails_batch` return zero
results for two submitted records — the parsed array is taken as-is. -/
theorem classify_emails_batch_drops_records :
    classify_emails_batch (fun _ => "[]") (fun _ => none)
        (fun s => if s = "[]" then some [] else none) "openai"
        [exEmailA, exEmailB] 10
      = Except.ok []
    ∧ ([] : List JVal).length ≠ [exEmailA, exEmailB].length := by
  constructor
  · rfl
  · decide

/-- C1 witness: the amended theorem applied to a free backend whose every
call fails (`call_llm` returns `""`), on one concrete record. -/
theorem classify_emails_batch_one_result_per_record_witness :
    ∃ rs, classify_emails_batch (fun _ => "") (fun _ => none) (fun _ => none)
        "ollama" [exEmailA] 1 = Except.ok rs ∧ rs.length = [exEmailA].length :=
  (classify_emails_batch_one_result_per_record (fun _ => "") (fun _ => none)
    (fun _ => none) "ollama" [exEmailA] 1 (by decide)).1 rfl

/-! ## Claim C2 -/

/-- C2 (confirmed): when a batch-classification response contains no JSON
array, or only a malformed one (`json.loads` fails), `classify_emails_batch`
raises nothing — the result is `Except.ok` — and recovers by classifying
every email of the batch individually. -/
theorem classify_emails_batch_malformed_array_fallback (llm : LlmPrompt → String)
    (loadsObj : String → Option (List (String × JVal)))
    (loadsArr : String → Option (List JVal))
    (pname : String) (emails : List EmailRecord) (batchSize : Nat)
    (hb : 1 ≤ batchSize)
    (hmal : ∀ p, (extractSpan '[' ']' (llm p)).bind loadsArr = none) :
    classify_emails_batch llm loadsObj loadsArr pname emails batchSize
      = Except.ok (emails.map (classify_email llm loadsObj pname)) :=
  classifier_eq_map llm loadsObj loadsArr pname emails batchSize hb (Or.inr hmal)

/-- C2 witness: a premium backend answering prose with no JSON array:
the batch call returns the per-item classifications. -/
theorem classify_emails_batch_malformed_array_fallback_witness :
    classify_emails_batch (fun _ => "no json array here") (fun _ => none)
        (fun _ => none) "openai" [exEmailA, exEmailB] 2
      = Except.ok ([exEmailA, exEmailB].map
          (classify_email (fun _ => "no json array here") (fun _ => none) "openai")) :=
  classify_emails_batch_malformed_array_fallback (fun _ => "no json array here")
    (fun _ => none) (fun _ => none) "openai" [exEmailA, exEmailB] 2 (by decide)
    (fun p => by cases extractSpan '[' ']' ((fun _ => "no json array here") p) <;> rfl)

/-! ## Fetcher lemmas -/

/-- An exception on any page request that the paging loop actually reaches
makes the whole Outlook fetch return `[]`, whatever was accumulated. -/
theorem outlookFetchGo_error (limit : Nat) :
    ∀ (okPages : List (List EmailRecord))
      (rest : List (Except Unit (List EmailRecord))) (acc : List EmailRecord),
      (acc ++ okPages.flatten).length < limit →
      outlookFetchGo limit (okPages.map Except.ok ++ Except.error () :: rest) acc
        = [] := by
  intro okPages
  induction okPages with
  | nil =>
    intro rest acc h
    simp only [List.flatten_nil, List.append_nil] at h
    simp only [List.map_nil, List.nil_append]
    rw [outlookFetchGo, if_pos h]
  | cons p ps ih =>
    intro rest acc h
    simp only [List.length_append, List.flatten_cons] at h
    have hlt : acc.length < limit := by omega
    simp only [List.map_cons, List.cons_append]
    rw [outlookFetchGo, if_pos hlt]
    apply ih
    simp only [List.length_append]
    omega

/-- The Outlook fetch result is either `[]` (an exception was raised) or a
`limit`-truncation of a prefix of the concatenated successful pages. -/
theorem outlookFetchGo_spec (limit : Nat) :
    ∀ (pages : List (Except Unit (List EmailRecord))) (acc : List EmailRecord),
      outlookFetchGo limit pages acc = []
      ∨ ∃ l : List EmailRecord,
          outlookFetchGo limit pages acc = (acc ++ l).take limit
          ∧ l <+: (pages.filterMap okValue).flatten := by
  intro pages
  induction pages with
  | nil =>
    intro acc
    right
    refine ⟨[], ?_, by simp⟩
    rw [outlookFetchGo]
    simp
  | cons p rest ih =>
    intro acc
    cases p with
    | error e =>
      rw [outlookFetchGo]
      by_cases hlt : acc.length < limit
      · rw [if_pos hlt]
        left
        rfl
      · rw [if_neg hlt]
        right
        exact ⟨[], by simp, by simp⟩
    | ok v =>
      rw [outlookFetchGo]
      by_cases hlt : acc.length < limit
      · rw [if_pos hlt]
        rcases ih (acc ++ v) with h | ⟨l, h1, h2⟩
        · left; exact h
        · right
          refine ⟨v ++ l, by rw [h1, List.append_assoc], ?_⟩
          simp only [List.filterMap_cons, okValue, List.flatten_cons]
          obtain ⟨t, ht⟩ := h2
          exact ⟨t, by rw [List.append_assoc, ht]⟩
      · rw [if_neg hlt]
        right
        exact ⟨[], by simp, by simp⟩

/-! ## Claim C3 -/

/-- C3 (amended): in the Outlook fetcher a page-request failure — on the
first page or on any later page the loop reaches — makes `fetch_emails`
return the empty list, discarding the records accumulated from earlier
pages; in the Gmail fetcher the single message-list request's failure
likewise yields the empty list. -/
theorem fetch_page_failure_returns_empty (limit : Nat)
    (okPages : List (List EmailRecord))
    (rest : List (Except Unit (List EmailRecord)))
    (details : String → Option EmailRecord)
    (hreach : okPages.flatten.length < limit) :
    outlook_fetch_emails limit (okPages.map Except.ok ++ Except.error () :: rest) = []
    ∧ gmail_fetch_emails limit (Except.error ()) details = [] := by
  constructor
  · exact outlookFetchGo_error limit okPages rest [] (by simpa using hreach)
  · rfl

/-- C3 counterexample: one page of one record is fetched, the second page
request raises — the accumulated record is discarded and `[]` returned,
where the claim requires the partial result `[exEmailA]`. -/
theorem fetch_partial_results_discarded :
    outlook_fetch_emails 50 [Except.ok [exEmailA], Except.error ()] = []
    ∧ ([] : List EmailRecord) ≠ [exEmailA] := by
  exact ⟨rfl, by decide⟩

/-- C3 witness: the amended theorem at a concrete one-page-then-failure
run and a concrete failing Gmail list call. -/
theorem fetch_page_failure_returns_empty_witness :
    outlook_fetch_emails 50 ([[exEmailA]].map Except.ok ++ Except.error () :: []) = []
    ∧ gmail_fetch_emails 50 (Except.error ()) (fun _ => none) = [] :=
  fetch_page_failure_returns_empty 50 [[exEmailA]] [] (fun _ => none) (by decide)

/-! ## Claim C9 -/

/-- C9 (confirmed): both fetchers return at most `limit` records, and —
because ordering and date restriction are delegated to the provider via the
request's order/filter parameters — whenever the provider's successful pages
are newest-first sorted (any relation `R`) the result is too, and whenever
every provider-returned record satisfies a predicate `P` (such as "received
within the last `days_back` days") so does every returned record. -/
theorem fetch_emails_limit_order_filter (limit : Nat)
    (pages : List (Except Unit (List EmailRecord)))
    (listResult : Except Unit (List String))
    (details : String → Option EmailRecord) :
    (outlook_fetch_emails limit pages).length ≤ limit
    ∧ (∀ P : EmailRecord → Prop,
        (∀ v ∈ pages.filterMap okValue, ∀ e ∈ v, P e) →
        ∀ e ∈ outlook_fetch_emails limit pages, P e)
    ∧ (∀ R : EmailRecord → EmailRecord → Prop,
        (pages.filterMap okValue).flatten.Pairwise R →
        (outlook_fetch_emails limit pages).Pairwise R)
    ∧ (gmail_fetch_emails limit listResult details).length ≤ limit
    ∧ (∀ P : EmailRecord → Prop,
        (∀ m e, details m = some e → P e) →
        ∀ e ∈ gmail_fetch_emails limit listResult details, P e)
    ∧ (∀ (R : EmailRecord → EmailRecord → Prop) (msgs : List String),
        listResult = Except.ok msgs →
        (msgs.filterMap details).Pairwise R →
        (gmail_fetch_emails limit listResult details).Pairwise R) := by
  have hspec := outlookFetchGo_spec limit pages []
  have hsub : (outlook_fetch_emails limit pages).Sublist
      (pages.filterMap okValue).flatten := by
    rcases hspec with h | ⟨l, h1, h2⟩
    · rw [outlook_fetch_emails, h]; exact List.nil_sublist _
    · rw [outlook_fetch_emails, h1, List.nil_append]
      exact ((List.take_sublist limit l).trans h2.sublist)
  refine ⟨?_, ?_, ?_, ?_, ?_, ?_⟩
  · rcases hspec with h | ⟨l, h1, _⟩
    · rw [outlook_fetch_emails, h]; exact Nat.zero_le _
    · rw [outlook_fetch_emails, h1]
      exact (List.length_take _ _).le.trans (Nat.min_le_left _ _)
  · intro P hP e he
    have := hsub.mem he
    rw [List.mem_flatten] at this
    obtain ⟨v, hv, hev⟩ := this
    exact hP v hv e hev
  · intro R hR
    exact hR.sublist hsub
  · cases listResult with
    | error e => exact Nat.zero_le _
    | ok msgs =>
      by_cases hm : msgs.isEmpty
      · simp [gmail_fetch_emails, hm]
      · simp only [gmail_fetch_emails, hm, if_false, Bool.false_eq_true]
        exact (List.length_take _ _).le.trans (Nat.min_le_left _ _)
  · intro P hP e he
    cases listResult with
    | error err => simp [gmail_fetch_emails] at he
    | ok msgs =>
      by_cases hm : msgs.isEmpty
      · simp [gmail_fetch_emails, hm] at he
      · simp only [gmail_fetch_emails, hm, if_false, Bool.false_eq_true] at he
        have := List.mem_of_mem_take he
        rw [List.mem_filterMap] at this
        obtain ⟨m, _, hme⟩ := this
        exact hP m e hme
  · intro R msgs hok hR
    subst hok
    by_cases hm : msgs.isEmpty
    · simp [gmail_fetch_emails, hm]
    · simp only [gmail_fetch_emails, hm, if_false, Bool.false_eq_true]
      exact hR.sublist (List.take_sublist _ _)

/-- C9 witness: a two-record page sorted newest-first with `limit = 2`, and
a one-message Gmail run whose only detail record carries a timestamp. -/
theorem fetch_emails_limit_order_filter_witness :
    (outlook_fetch_emails 2 [Except.ok [exEmailB, exEmailA]]).length ≤ 2
    ∧ (outlook_fetch_emails 2 [Except.ok [exEmailB, exEmailA]]).Pairwise
        (fun a b => b.receivedDateTime.getD 0 ≤ a.receivedDateTime.getD 0)
    ∧ ∀ e ∈ gmail_fetch_emails 2 (Except.ok ["m1"])
          (fun m => if m = "m1" then some exEmailA else none),
        e.receivedDateTime ≠ none := by
  have h := fetch_emails_limit_order_filter 2 [Except.ok [exEmailB, exEmailA]]
    (Except.ok ["m1"]) (fun m => if m = "m1" then some exEmailA else none)
  refine ⟨h.1, h.2.2.1 _ ?_, h.2.2.2.2.1 (fun r => r.receivedDateTime ≠ none) ?_⟩
  · decide
  · intro m e hme
    by_cases hm : m = "m1"
    · rw [if_pos hm] at hme
      injection hme with h2
      subst h2
      decide
    · rw [if_neg hm] at hme
      exact Option.noConfusion hme

/-! ## Claim C4 -/

/-- C4 (confirmed): with the dry-run flag set, every mutating operation of
both providers returns its success value and issues no network call at all
(the flag is tested before any request is built or sent), and the bulk
variants report success for every submitted id with an empty network trace. -/
theorem dry_run_suppresses_mutations (respond : MsCall → Except Unit MsResponse)
    (grespond : GCall → Except GErr Unit)
    (listLabels : Except GErr (List (String × String)))
    (emailId folderId folderName parentFolder labelName : String)
    (permanent isRead : Bool) (emailIds : List String) :
    ms_delete_email true respond emailId permanent = (true, [])
    ∧ ms_move_email true respond emailId folderId = (true, [])
    ∧ ms_mark_as_read true respond emailId isRead = (true, [])
    ∧ ms_create_folder true respond folderName parentFolder
        = (some "dry_run_folder_id", [])
    ∧ g_delete_email true grespond emailId permanent = (true, [])
    ∧ g_move_email true grespond listLabels emailId labelName = (true, [])
    ∧ g_mark_as_read true grespond emailId isRead = (true, [])
    ∧ g_create_label true grespond labelName = (true, [])
    ∧ (ms_bulk_delete true respond emailIds permanent).2 = []
    ∧ (ms_bulk_move true respond emailIds folderId).2 = []
    ∧ (g_bulk_delete true grespond emailIds permanent).2 = []
    ∧ (g_bulk_move true grespond listLabels emailIds labelName).2 = []
    ∧ (∀ k ∈ emailIds,
        dictGet (ms_bulk_delete true respond emailIds permanent).1 k = some true)
    ∧ (∀ k ∈ emailIds,
        dictGet (ms_bulk_move true respond emailIds folderId).1 k = some true)
    ∧ (∀ k ∈ emailIds,
        dictGet (g_bulk_delete true grespond emailIds permanent).1 k = some true)
    ∧ (∀ k ∈ emailIds,
        dictGet (g_bulk_move true grespond listLabels emailIds labelName).1 k
          = some true) := by
  refine ⟨rfl, rfl, rfl, rfl, rfl, rfl, rfl, rfl, ?_, ?_, ?_, ?_, ?_, ?_, ?_, ?_⟩
  · rw [ms_bulk_delete, bulkLoop_trace]
    simp [ms_delete_email]
  · rw [ms_bulk_move, bulkLoop_trace]
    simp [ms_move_email]
  · rw [g_bulk_delete, bulkLoop_trace]
    simp [g_delete_email]
  · rw [g_bulk_move, bulkLoop_trace]
    simp [g_move_email]
  · intro k hk
    rw [ms_bulk_delete, bulkLoop_get _ _ _ hk]
    rfl
  · intro k hk
    rw [ms_bulk_move, bulkLoop_get _ _ _ hk]
    rfl
  · intro k hk
    rw [g_bulk_delete, bulkLoop_get _ _ _ hk]
    rfl
  · intro k hk
    rw [g_bulk_move, bulkLoop_get _ _ _ hk]
    rfl

/-- C4 witness: dry-run with always-failing oracles on concrete ids — every
operation still reports success and the bulk maps are all-true. -/
theorem dry_run_suppresses_mutations_witness :
    ms_delete_email true (fun _ => Except.error ()) "a" false = (true, [])
    ∧ (ms_bulk_delete true (fun _ => Except.error ()) ["a", "b"] false).2 = []
    ∧ dictGet (ms_bulk_delete true (fun _ => Except.error ()) ["a", "b"] false).1 "a"
        = some true
    ∧ dictGet (g_bulk_move true (fun _ => Except.error GErr.other)
        (Except.error GErr.other) ["a", "b"] "Receipts").1 "b" = some true := by
  obtain ⟨h1, _, _, _, _, _, _, _, h9, _, _, _, h13, _, _, h16⟩ :=
    dry_run_suppresses_mutations (fun _ => Except.error ())
      (fun _ => Except.error GErr.other) (Except.error GErr.other)
      "a" "f" "n" "p" "Receipts" false false ["a", "b"]
  exact ⟨h1, h9, h13 "a" (by simp), h16 "b" (by simp)⟩

/-! ## Claim C5 -/

/-- C5 (confirmed): every bulk operation's result dict has an entry for each
submitted id — equal to the per-item action's outcome, so one item's failure
never skips later items — and each per-item action converts a raised
provider/network error into `false` instead of propagating it. -/
theorem bulk_map_complete_and_errors_false (respond : MsCall → Except Unit MsResponse)
    (grespond : GCall → Except GErr Unit)
    (listLabels : Except GErr (List (String × String)))
    (emailIds : List String) (permanent : Bool) (folderId labelName : String) :
    (∀ k ∈ emailIds,
      dictGet (ms_bulk_delete false respond emailIds permanent).1 k
        = some (ms_delete_email false respond k permanent).1)
    ∧ (∀ k ∈ emailIds,
      dictGet (ms_bulk_move false respond emailIds folderId).1 k
        = some (ms_move_email false respond k folderId).1)
    ∧ (∀ k ∈ emailIds,
      dictGet (g_bulk_delete false grespond emailIds permanent).1 k
        = some (g_delete_email false grespond k permanent).1)
    ∧ (∀ k ∈ emailIds,
      dictGet (g_bulk_move false grespond listLabels emailIds labelName).1 k
        = some (g_move_email false grespond listLabels k labelName).1)
    ∧ ((∀ c, respond c = Except.error ()) → ∀ k,
        (ms_delete_email false respond k permanent).1 = false
        ∧ (ms_move_email false respond k folderId).1 = false
        ∧ (ms_mark_as_read false respond k true).1 = false)
    ∧ ((∀ c, grespond c = Except.error GErr.other) → ∀ k,
        (g_delete_email false grespond k permanent).1 = false
        ∧ (g_move_email false grespond listLabels k labelName).1 = false
        ∧ (g_mark_as_read false grespond k true).1 = false) := by
  refine ⟨?_, ?_, ?_, ?_, ?_, ?_⟩
  · intro k hk
    rw [ms_bulk_delete, bulkLoop_get _ _ _ hk]
  · intro k hk
    rw [ms_bulk_move, bulkLoop_get _ _ _ hk]
  · intro k hk
    rw [g_bulk_delete, bulkLoop_get _ _ _ hk]
  · intro k hk
    rw [g_bulk_move, bulkLoop_get _ _ _ hk]
  · intro herr k
    refine ⟨?_, ?_, ?_⟩
    · simp [ms_delete_email, herr]
    · simp [ms_move_email, herr]
    · simp [ms_mark_as_read, herr]
  · intro herr k
    refine ⟨by simp [g_delete_email, herr], ?_, by simp [g_mark_as_read, herr]⟩
    simp only [g_move_email, g_get_label_id]
    cases listLabels with
    | error e2 => simp
    | ok labels =>
      cases hf : labels.find? (fun p => strToLower p.1 = strToLower labelName) with
      | none => simp [hf]
      | some p =>
        by_cases hemp : p.2 = ""
        · simp [hf, hemp]
        · simp [hf, hemp, herr]

/-- C5 witness: always-failing oracles over two concrete ids — both entries
exist and are `false`; the single-item actions return `false`. -/
theorem bulk_map_complete_and_errors_false_witness :
    dictGet (ms_bulk_delete false (fun _ => Except.error ()) ["a", "b"] false).1 "b"
      = some false
    ∧ dictGet (g_bulk_move false (fun _ => Except.error GErr.other)
        (Except.error GErr.other) ["a", "b"] "Receipts").1 "a" = some false
    ∧ (ms_delete_email false (fun _ => Except.error ()) "a" false).1 = false := by
  have h := bulk_map_complete_and_errors_false (fun _ => Except.error ())
    (fun _ => Except.error GErr.other) (Except.error GErr.other)
    ["a", "b"] false "f" "Receipts"
  have hms := h.2.2.2.2.1 (fun _ => rfl)
  have hg := h.2.2.2.2.2 (fun _ => rfl)
  refine ⟨?_, ?_, (hms "a").1⟩
  · rw [h.1 "b" (by simp), (hms "b").1]
  · rw [h.2.2.2.1 "a" (by simp), (hg "a").2.1]

/-! ## Claim C6 -/

/-- C6 counterexample: creating the same Outlook folder twice — the first
request succeeds with 201 and a folder id, the second draws the provider's
already-exists response (HTTP 409) — returns `none` (failure) the second
time, where the claim requires success both times. -/
theorem create_folder_second_call_fails :
    (ms_create_folder false (fun _ => Except.ok { status := 201, bodyId := some "fid1" })
        "Projects" "msgfolderroot").1 = some "fid1"
    ∧ (ms_create_folder false (fun _ => Except.ok { status := 409, bodyId := none })
        "Projects" "msgfolderroot").1 = none := by
  exact ⟨rfl, rfl⟩

/-- C6 (amended): folder/label creation is idempotent for the Gmail action
only — `create_label` treats the provider's already-exists answer (an
`HttpError` with status 409) as success, so a second call with the same name
still returns `True` — while the Outlook `create_folder` treats every
non-200/201 status, including the 409 already-exists answer, as a failure
and returns `None` on the second call. -/
theorem create_label_idempotent_create_folder_not
    (grespond : GCall → Except GErr Unit) (respond : MsCall → Except Unit MsResponse)
    (labelName folderName parentFolder : String) :
    (grespond (GCall.createLabel labelName) = Except.ok () →
      (g_create_label false grespond labelName).1 = true)
    ∧ (grespond (GCall.createLabel labelName) = Except.error (GErr.http 409) →
      (g_create_label false grespond labelName).1 = true)
    ∧ (∀ r : MsResponse,
        respond (MsCall.createFolder folderName parentFolder) = Except.ok r →
        r.status = 409 →
        (ms_create_folder false respond folderName parentFolder).1 = none) := by
  refine ⟨?_, ?_, ?_⟩
  · intro hok
    simp [g_create_label, hok]
  · intro hex
    simp [g_create_label, hex]
  · intro r hok hst
    simp [ms_create_folder, hok, hst]

/-- C6 witness: the amended theorem at concrete oracles — a Gmail 409
answer yields `True`, an Outlook 409 answer yields `None`. -/
theorem create_label_idempotent_create_folder_not_witness :
    (g_create_label false (fun _ => Except.error (GErr.http 409)) "Receipts").1 = true
    ∧ (ms_create_folder false (fun _ => Except.ok { status := 409, bodyId := none })
        "Receipts" "msgfolderroot").1 = none := by
  have h := create_label_idempotent_create_folder_not
    (fun _ => Except.error (GErr.http 409))
    (fun _ => Except.ok { status := 409, bodyId := none })
    "Receipts" "Receipts" "msgfolderroot"
  exact ⟨h.2.1 rfl, h.2.2 _ rfl rfl⟩

/-! ## Processor lemmas -/

/-- Looking a key up in a filtered dict built over distinct keys. -/
theorem dictGet_map_filter {α : Type} (h : String → α) (pred : String × α → Bool) :
    ∀ (keys : List String), keys.Nodup → ∀ k : String,
      dictGet ((keys.map (fun s => (s, h s))).filter pred) k
        = if k ∈ keys ∧ pred (k, h k) = true then some (h k) else none := by
  intro keys
  induction keys with
  | nil =>
    intro _ k
    simp [dictGet]
  | cons s rest ih =>
    intro hnd k
    have hs : s ∉ rest := (List.nodup_cons.mp hnd).1
    have hrest : rest.Nodup := (List.nodup_cons.mp hnd).2
    simp only [List.map_cons, List.filter_cons]
    by_cases hp : pred (s, h s) = true
    · rw [if_pos hp]
      simp only [dictGet]
      by_cases hk : s = k
      · subst hk
        rw [if_pos rfl, if_pos ⟨List.mem_cons_self s rest, hp⟩]
      · rw [if_neg hk, ih hrest k]
        by_cases hcond : k ∈ rest ∧ pred (k, h k) = true
        · rw [if_pos hcond, if_pos ⟨List.mem_cons_of_mem s hcond.1, hcond.2⟩]
        · rw [if_neg hcond, if_neg (fun hc => hcond
            ⟨(List.mem_cons.mp hc.1).resolve_left (fun he => hk he.symm), hc.2⟩)]
    · rw [if_neg hp, ih hrest k]
      by_cases hk : k = s
      · subst hk
        rw [if_neg (fun hc => hs hc.1), if_neg (fun hc => hp hc.2)]
      · by_cases hcond : k ∈ rest ∧ pred (k, h k) = true
        · rw [if_pos hcond, if_pos ⟨List.mem_cons_of_mem s hcond.1, hcond.2⟩]
        · rw [if_neg hcond, if_neg (fun hc => hcond
            ⟨(List.mem_cons.mp hc.1).resolve_left hk, hc.2⟩)]

/-- A `find?`-with-default over the category table equals the explicit
first-match recursion. -/
theorem specFirstMatch_eq_find (tbl : List (String × List String)) (content : String) :
    (match tbl.find? (fun p => p.2.any (fun kw => strContains content kw)) with
      | some p => p.1
      | none => "promotional") = specFirstMatch tbl content := by
  induction tbl with
  | nil => rfl
  | cons p rest ih =>
    obtain ⟨c, kws⟩ := p
    rw [specFirstMatch]
    by_cases hp : kws.any (fun kw => strContains content kw) = true
    · rw [@List.find?_cons_of_pos _ (fun q => q.2.any (fun kw => strContains content kw))
        (c, kws) rest hp, if_pos hp]
    · rw [@List.find?_cons_of_neg _ (fun q => q.2.any (fun kw => strContains content kw))
        (c, kws) rest hp, if_neg hp]
      exact ih

/-- Every email is assigned one of the six category names. -/
theorem categorizeEmail_mem (e : EmailRecord) : categorizeEmail e ∈ categoryNames := by
  rw [categorizeEmail]
  cases hf : categoryKeywords.find?
      (fun p => p.2.any (fun kw => strContains (categorizeContent e) kw)) with
  | none => decide
  | some p =>
    have hp : p ∈ categoryKeywords := List.mem_of_find?_eq_some hf
    have h2 : p.1 ∈ categoryKeywords.map Prod.fst := List.mem_map_of_mem Prod.fst hp
    have hmap : categoryKeywords.map Prod.fst = categoryNames := rfl
    rw [hmap] at h2
    exact h2

theorem sum_map_add {α : Type} (f g : α → Nat) :
    ∀ l : List α, (l.map (fun a => f a + g a)).sum = (l.map f).sum + (l.map g).sum := by
  intro l
  induction l with
  | nil => simp
  | cons a rest ih => simp [ih]; omega

theorem sum_ite_of_not_mem (s : String) :
    ∀ l : List String, s ∉ l → (l.map (fun c => if s = c then 1 else 0)).sum = 0 := by
  intro l
  induction l with
  | nil => simp
  | cons c rest ih =>
    intro hs
    have h1 : s ≠ c := fun he => hs (he ▸ List.mem_cons_self c rest)
    have h2 : s ∉ rest := fun hm => hs (List.mem_cons_of_mem c hm)
    simp [h1, ih h2]

theorem sum_ite_of_mem (s : String) :
    ∀ l : List String, l.Nodup → s ∈ l →
      (l.map (fun c => if s = c then 1 else 0)).sum = 1 := by
  intro l
  induction l with
  | nil => intro _ hm; simp at hm
  | cons c rest ih =>
    intro hnd hm
    obtain ⟨hc, hrest⟩ := List.nodup_cons.mp hnd
    rcases List.mem_cons.mp hm with rfl | hmr
    · simp [sum_ite_of_not_mem s rest hc]
    · have h1 : s ≠ c := fun he => hc (he ▸ hmr)
      simp [h1, ih hrest hmr]

theorem filter_eq_length_zero (s : String) :
    ∀ l : List String, s ∉ l → (l.filter (fun c => s = c)).length = 0 := by
  intro l
  induction l with
  | nil => simp
  | cons c rest ih =>
    intro hs
    have h1 : s ≠ c := fun he => hs (he ▸ List.mem_cons_self c rest)
    have h2 : s ∉ rest := fun hm => hs (List.mem_cons_of_mem c hm)
    simp [List.filter_cons, h1, ih h2]

theorem filter_eq_length_one (s : String) :
    ∀ l : List String, l.Nodup → s ∈ l →
      (l.filter (fun c => s = c)).length = 1 := by
  intro l
  induction l with
  | nil => intro _ hm; simp at hm
  | cons c rest ih =>
    intro hnd hm
    obtain ⟨hc, hrest⟩ := List.nodup_cons.mp hnd
    rcases List.mem_cons.mp hm with rfl | hmr
    · simp [List.filter_cons, filter_eq_length_zero s rest hc]
    · have h1 : s ≠ c := fun he => hc (he ▸ hmr)
      simp [List.filter_cons, h1, ih hrest hmr]

/-! ## Claim C7 -/

/-- C7 (confirmed): a sender appears in `get_bulk_delete_candidates` exactly
when at least `min_sender_count` of its emails are strictly older than the
`days_old` cutoff (for any positive threshold), and its entry is then
exactly the ids of those emails, in order. -/
theorem bulk_delete_candidates_iff (now : Int) (emails : List EmailRecord)
    (daysOld minCount : Nat) (sender : String) (hmin : 1 ≤ minCount) :
    ((dictGet (get_bulk_delete_candidates now emails daysOld minCount) sender).isSome
        = true
      ↔ minCount ≤ ((emails.filter (isOldEmail now daysOld)).filter
          (fun e => senderInfoEmail e = sender)).length)
    ∧ ∀ ids, dictGet (get_bulk_delete_candidates now emails daysOld minCount) sender
        = some ids →
        ids = ((emails.filter (isOldEmail now daysOld)).filter
          (fun e => senderInfoEmail e = sender)).map (·.id) := by
  have hkey := dictGet_map_filter
    (fun s => ((emails.filter (isOldEmail now daysOld)).filter
        (fun e => senderInfoEmail e = s)).map (·.id))
    (fun p => decide (minCount ≤ p.2.length))
    (dedupFirst ((emails.filter (isOldEmail now daysOld)).map senderInfoEmail))
    (nodup_dedupFirst _) sender
  simp only [decide_eq_true_eq, List.length_map] at hkey
  have hget : dictGet (get_bulk_delete_candidates now emails daysOld minCount) sender
      = if sender ∈ dedupFirst ((emails.filter (isOldEmail now daysOld)).map senderInfoEmail)
            ∧ minCount ≤ ((emails.filter (isOldEmail now daysOld)).filter
                (fun e => senderInfoEmail e = sender)).length
        then some (((emails.filter (isOldEmail now daysOld)).filter
            (fun e => senderInfoEmail e = sender)).map (·.id))
        else none := by
    rw [get_bulk_delete_candidates]
    exact hkey
  have hmem : sender ∈ dedupFirst ((emails.filter (isOldEmail now daysOld)).map
        senderInfoEmail)
      ↔ 0 < ((emails.filter (isOldEmail now daysOld)).filter
          (fun e => senderInfoEmail e = sender)).length := by
    rw [mem_dedupFirst, List.mem_map, List.length_pos_iff_exists_mem]
    constructor
    · rintro ⟨e, he, hse⟩
      exact ⟨e, List.mem_filter.mpr ⟨he, by simp [hse]⟩⟩
    · rintro ⟨e, he⟩
      obtain ⟨he1, he2⟩ := List.mem_filter.mp he
      exact ⟨e, he1, by simpa using he2⟩
  constructor
  · rw [hget]
    constructor
    · intro hs
      by_cases hcond : sender ∈ dedupFirst ((emails.filter (isOldEmail now daysOld)).map
            senderInfoEmail)
          ∧ minCount ≤ ((emails.filter (isOldEmail now daysOld)).filter
              (fun e => senderInfoEmail e = sender)).length
      · exact hcond.2
      · rw [if_neg hcond] at hs
        simp at hs
    · intro hlen
      rw [if_pos ⟨hmem.mpr (by omega), hlen⟩]
      rfl
  · intro ids hid
    rw [hget] at hid
    by_cases hcond : sender ∈ dedupFirst ((emails.filter (isOldEmail now daysOld)).map
          senderInfoEmail)
        ∧ minCount ≤ ((emails.filter (isOldEmail now daysOld)).filter
            (fun e => senderInfoEmail e = sender)).length
    · rw [if_pos hcond] at hid
      exact (Option.some.injEq _ _ ▸ hid).symm
    · rw [if_neg hcond] at hid
      exact Option.noConfusion hid

/-- C7 witness: six 35-day-old emails from one sender plus three from
another, `days_old = 30`, `min_sender_count = 5`: the first sender has an
entry (with exactly its six ids, by the theorem) and the second has none. -/
theorem bulk_delete_candidates_iff_witness :
    (dictGet (get_bulk_delete_candidates (35 * 86400) candidateEmails 30 5)
        "spam@example.com").isSome = true
    ∧ (dictGet (get_bulk_delete_candidates (35 * 86400) candidateEmails 30 5)
        "other@example.com").isSome = false := by
  have hs := bulk_delete_candidates_iff (35 * 86400) candidateEmails 30 5
    "spam@example.com" (by decide)
  have ho := bulk_delete_candidates_iff (35 * 86400) candidateEmails 30 5
    "other@example.com" (by decide)
  constructor
  · exact hs.1.mpr (by decide)
  · have hno := mt ho.1.mp (by decide)
    simpa using hno

/-! ## Claim C8 -/

/-- C8 counterexample: an email whose sender address is
`NEWSLETTER@EXAMPLE.COM` (and whose subject and preview are empty) contains
the keyword `newsletter` under case-insensitive matching, yet the code files
it under `promotional`, not `newsletters` — the sender address is never
lowercased. -/
theorem categorize_sender_not_lowercased :
    strContains (strToLower (categorizeContent upperSenderEmail)) "newsletter" = true
    ∧ categorizeEmail upperSenderEmail = "promotional"
    ∧ dictGet (categorize_by_content [upperSenderEmail]) "newsletters" = some []
    ∧ dictGet (categorize_by_content [upperSenderEmail]) "promotional" = some ["x"] := by
  refine ⟨by decide, by decide, by decide, by decide⟩

/-- C8 (amended): `categorize_by_content` assigns each email to the first
category, in the fixed order newsletters, notifications, receipts, social,
security, promotional, whose keyword set has a substring match against the
search text — which is case-insensitive for the subject and body preview
(both lowercased) but verbatim, case-sensitive, for the sender address —
defaulting unmatched emails to promotional; the three claimed examples hold. -/
theorem categorize_by_content_first_match (emails : List EmailRecord) :
    (∀ e : EmailRecord,
      categorizeEmail e = specFirstMatch categoryKeywords (specContent e))
    ∧ categorizeEmail newsletterEmail = "newsletters"
    ∧ categorizeEmail passwordEmail = "security"
    ∧ categorizeEmail receiptEmail = "receipts"
    ∧ categorizeEmail blandEmail = "promotional"
    ∧ categorize_by_content emails
        = categoryNames.map (fun c =>
            (c, emails.filterMap (fun e =>
              if specFirstMatch categoryKeywords (specContent e) = c
              then some (e.id.getD "unknown") else none))) := by
  have hfun : ∀ e : EmailRecord,
      categorizeEmail e = specFirstMatch categoryKeywords (specContent e) := by
    intro e
    rw [categorizeEmail]
    exact specFirstMatch_eq_find categoryKeywords (categorizeContent e)
  refine ⟨hfun, by decide, by decide, by decide, by decide, ?_⟩
  rw [categorize_by_content, funext hfun]

/-! ## Claim C10 -/

/-- Summed per-category lengths over the fixed category list equal the email
count: the inductive core of the completeness claim. -/
theorem total_filterMap_length (emails : List EmailRecord) :
    (categoryNames.map (fun c =>
      (emails.filterMap (fun e2 =>
        if categorizeEmail e2 = c then some (e2.id.getD "unknown") else none)).length)).sum
    = emails.length := by
  induction emails with
  | nil => simp
  | cons e es ih =>
    have hlen : ∀ c : String,
        ((e :: es).filterMap (fun e2 =>
          if categorizeEmail e2 = c then some (e2.id.getD "unknown") else none)).length
        = (if categorizeEmail e = c then 1 else 0)
          + (es.filterMap (fun e2 =>
              if categorizeEmail e2 = c then some (e2.id.getD "unknown") else none)).length := by
      intro c
      by_cases hc : categorizeEmail e = c
      · simp [List.filterMap_cons, hc, Nat.add_comm]
      · simp [List.filterMap_cons, hc]
    simp only [hlen]
    rw [sum_map_add, sum_ite_of_mem (categorizeEmail e) categoryNames (by decide)
      (categorizeEmail_mem e), ih]
    simp [Nat.add_comm]

/-- C10 (confirmed): the per-email loop of `categorize_by_content` places
every submitted email in exactly one category — each email's assigned name
occurs once among the six — so the total length of the six returned id lists
equals the number of submitted emails. -/
theorem categorize_by_content_total_length (emails : List EmailRecord) :
    ((categorize_by_content emails).map (fun p => p.2.length)).sum = emails.length
    ∧ ∀ e : EmailRecord,
      (categoryNames.filter (fun c => categorizeEmail e = c)).length = 1 := by
  constructor
  · rw [categorize_by_content, List.map_map]
    exact total_filterMap_length emails
  · intro e
    exact filter_eq_length_one (categorizeEmail e) categoryNames (by decide)
      (categorizeEmail_mem e)

end Mailbot
